import Mathlib

/-!
# ORACLE Engine — verification of the bounded-concurrency request pipeline

Shallow embedding of `src/oracle_engine.py` (ORACLE Engine).  Python values
that flow through the pipeline are modelled by the inductive type `JValue`
(JSON values as produced by Python's `json.loads`); Python code that can
raise is modelled with `Except`/`Option`; wall-clock effects (timestamps,
durations, actual sleeping) are modelled as constants or as events on an
explicit trace.  The single-threaded cooperative scheduler of the source is
modelled as a sequential event trace: within `run_category` the source
awaits each simulation to completion before the next iteration, so the
per-item event order is exactly the statement order of the loop body.
-/

namespace OracleEngine

/-- The opening brace, closing brace, double-quote and backslash
characters (code points 123, 125, 34, 92), named once and used throughout
the JSON grammar and the brace-slicing parse step. -/
def lbrace : Char := Char.ofNat 123

def rbrace : Char := Char.ofNat 125

def dquote : Char := Char.ofNat 34

def bslash : Char := Char.ofNat 92

/-- An exact decimal number `m / 10 ^ e`: the model of Python's numeric
values in this pipeline (JSON ints carry `e = 0`; JSON/Python floats carry
their decimal digits exactly — the claims never exercise binary-float
rounding, so exact decimals are a faithful model).  The representation is
deliberately built from `Int`/`Nat` primitives only, so concrete runs
reduce inside the kernel. -/
structure PyNum where
  m : ℤ
  e : ℕ
deriving DecidableEq, Repr

/-- The rational value of a decimal (for specification-level statements). -/
def PyNum.toRat (n : PyNum) : ℚ := (n.m : ℚ) / (10 : ℚ) ^ n.e

/-- JSON values, as returned by Python's `json.loads`: numbers are exact
decimals, objects are insertion-ordered key/value lists with unique keys
(Python dicts). -/
inductive JValue where
  | jnull
  | jbool (b : Bool)
  | jnum (n : PyNum)
  | jstr (s : String)
  | jarr (elems : List JValue)
  | jobj (fields : List (String × JValue))
deriving Repr

/-- Python truthiness (`bool(v)`) on JSON values. -/
def pyTruthy : JValue → Bool
  | .jnull => false
  | .jbool b => b
  | .jnum n => decide (n.m ≠ 0)
  | .jstr s => decide (s ≠ "")
  | .jarr xs => !xs.isEmpty
  | .jobj fs => !fs.isEmpty

/-- Python `v == s` for a string literal `s` on the right (used by the
progress-icon comparison): only a `str` of equal contents compares equal. -/
def jstrEq (v : JValue) (s : String) : Bool :=
  match v with
  | .jstr t => t == s
  | _ => false

/-- `dict.get(k, dflt)` on an already-deduplicated field list. -/
def dGet (fields : List (String × JValue)) (k : String) (dflt : JValue) : JValue :=
  (fields.lookup k).getD dflt

/-- Python dict insertion: a repeated key updates the value in place,
keeping the original position; a new key is appended. -/
def dictInsert (fields : List (String × JValue)) (k : String) (v : JValue) :
    List (String × JValue) :=
  if (fields.lookup k).isSome then
    fields.map (fun p => if p.1 = k then (k, v) else p)
  else fields ++ [(k, v)]

/-! ## A model of Python's `json.loads` (strict mode)

Recursive descent over `List Char` with explicit fuel (the fuel is sized
generously at the entry point; all theorems use `jsonLoads` as a fixed
function of the character list, so fuel adequacy is only exercised
computationally, on the concrete witness inputs). -/

/-- JSON whitespace skipping (space, tab, newline, carriage return). -/
def skipWs : List Char → List Char
  | c :: cs => if c = ' ' ∨ c = '\t' ∨ c = '\n' ∨ c = '\r' then skipWs cs else c :: cs
  | [] => []

def hexVal (c : Char) : Option Nat :=
  if '0' ≤ c ∧ c ≤ '9' then some (c.toNat - 48)
  else if 'a' ≤ c ∧ c ≤ 'f' then some (c.toNat - 87)
  else if 'A' ≤ c ∧ c ≤ 'F' then some (c.toNat - 55)
  else none

def digVal (c : Char) : Option Nat :=
  if '0' ≤ c ∧ c ≤ '9' then some (c.toNat - 48) else none

/-- Longest digit run at the head of the input. -/
def takeDigits : List Char → List Nat × List Char
  | [] => ([], [])
  | c :: cs =>
    match digVal c with
    | some d => let (ds, r) := takeDigits cs; (d :: ds, r)
    | none => ([], c :: cs)

def natOfDigits (ds : List Nat) : Nat := ds.foldl (fun a d => a * 10 + d) 0

/-- Body of a JSON string after the opening quote; returns the decoded
characters and the remainder after the closing quote. -/
def parseStrChars : Nat → List Char → Option (List Char × List Char)
  | 0, _ => none
  | _, [] => none
  | fuel + 1, c :: cs =>
    if c = dquote then some ([], cs)
    else if c = bslash then
      match cs with
      | [] => none
      | e :: cs' =>
        if e = dquote then (parseStrChars fuel cs').map (fun p => (dquote :: p.1, p.2))
        else if e = bslash then (parseStrChars fuel cs').map (fun p => (bslash :: p.1, p.2))
        else if e = '/' then (parseStrChars fuel cs').map (fun p => ('/' :: p.1, p.2))
        else if e = 'b' then (parseStrChars fuel cs').map (fun p => (Char.ofNat 8 :: p.1, p.2))
        else if e = 'f' then (parseStrChars fuel cs').map (fun p => (Char.ofNat 12 :: p.1, p.2))
        else if e = 'n' then (parseStrChars fuel cs').map (fun p => ('\n' :: p.1, p.2))
        else if e = 'r' then (parseStrChars fuel cs').map (fun p => ('\r' :: p.1, p.2))
        else if e = 't' then (parseStrChars fuel cs').map (fun p => ('\t' :: p.1, p.2))
        else if e = 'u' then
          match cs' with
          | h1 :: h2 :: h3 :: h4 :: cs'' =>
            match hexVal h1, hexVal h2, hexVal h3, hexVal h4 with
            | some a, some b, some c2, some d =>
              (parseStrChars fuel cs'').map
                (fun p => (Char.ofNat (((a * 16 + b) * 16 + c2) * 16 + d) :: p.1, p.2))
            | _, _, _, _ => none
          | _ => none
        else none
    else if c.toNat < 32 then none
    else (parseStrChars fuel cs).map (fun p => (c :: p.1, p.2))

/-- Assemble an exact decimal from sign, integer digits, fraction digits
and a signed decimal exponent. -/
def mkDecimal (neg : Bool) (ids fds : List Nat) (eo : Option (Bool × List Nat)) : PyNum :=
  let m0 : ℤ := (natOfDigits (ids ++ fds) : ℤ)
  let m1 : ℤ := if neg then -m0 else m0
  match eo with
  | some (esgn, eds) =>
    if esgn then { m := m1, e := fds.length + natOfDigits eds }
    else { m := m1 * ((10 : ℤ) ^ natOfDigits eds), e := fds.length }
  | none => { m := m1, e := fds.length }

/-- JSON number grammar: `-? int frac? exp?` with the strict leading-zero
rule; produces the exact decimal value. -/
def parseNumber (cs : List Char) : Option (PyNum × List Char) :=
  let (neg, cs1) := match cs with
    | '-' :: t => (true, t)
    | _ => (false, cs)
  let (ids, cs2) := takeDigits cs1
  if ids = [] then none
  else if 1 < ids.length ∧ ids.head? = some 0 then none
  else
    let (fds, cs3) : Option (List Nat) × List Char := match cs2 with
      | '.' :: t => let (ds, r) := takeDigits t; (some ds, r)
      | _ => (none, cs2)
    match fds with
    | some [] => none
    | _ =>
      let (eo, cs4) : Option (Bool × List Nat) × List Char := match cs3 with
        | c :: t =>
          if c = 'e' ∨ c = 'E' then
            match t with
            | '+' :: t' => let (ds, r) := takeDigits t'; (some (false, ds), r)
            | '-' :: t' => let (ds, r) := takeDigits t'; (some (true, ds), r)
            | _ => let (ds, r) := takeDigits t; (some (false, ds), r)
          else (none, c :: t)
        | [] => (none, [])
      match eo with
      | some (_, []) => none
      | _ => some (mkDecimal neg ids (fds.getD []) eo, cs4)

mutual
/-- One JSON value, leading whitespace allowed. -/
def parseVal : Nat → List Char → Option (JValue × List Char)
  | 0, _ => none
  | fuel + 1, cs =>
    match skipWs cs with
    | [] => none
    | c :: rest =>
      if c = dquote then
        (parseStrChars (rest.length + 1) rest).map (fun p => (.jstr (String.mk p.1), p.2))
      else if c = lbrace then
        match skipWs rest with
        | c2 :: rest2 =>
          if c2 = rbrace then some (.jobj [], rest2)
          else (parseMembers fuel (c2 :: rest2) []).map (fun p => (.jobj p.1, p.2))
        | [] => none
      else if c = '[' then
        match skipWs rest with
        | c2 :: rest2 =>
          if c2 = ']' then some (.jarr [], rest2)
          else (parseElems fuel (c2 :: rest2)).map (fun p => (.jarr p.1, p.2))
        | [] => none
      else if c = 't' then
        match rest with
        | 'r' :: 'u' :: 'e' :: r => some (.jbool true, r)
        | _ => none
      else if c = 'f' then
        match rest with
        | 'a' :: 'l' :: 's' :: 'e' :: r => some (.jbool false, r)
        | _ => none
      else if c = 'n' then
        match rest with
        | 'u' :: 'l' :: 'l' :: r => some (.jnull, r)
        | _ => none
      else
        (parseNumber (c :: rest)).map (fun p => (.jnum p.1, p.2))

/-- Comma-separated object members, starting at (the whitespace-skipped)
first key; accumulates with Python-dict duplicate-key semantics. -/
def parseMembers : Nat → List Char → List (String × JValue) →
    Option (List (String × JValue) × List Char)
  | 0, _, _ => none
  | fuel + 1, cs, acc =>
    match skipWs cs with
    | c :: rest =>
      if c = dquote then
        match parseStrChars (rest.length + 1) rest with
        | some (kcs, rest2) =>
          match skipWs rest2 with
          | ':' :: rest3 =>
            match parseVal fuel rest3 with
            | some (v, rest4) =>
              let acc' := dictInsert acc (String.mk kcs) v
              match skipWs rest4 with
              | ',' :: rest5 => parseMembers fuel rest5 acc'
              | c5 :: rest5 => if c5 = rbrace then some (acc', rest5) else none
              | [] => none
            | none => none
          | _ => none
        | none => none
      else none
    | [] => none

/-- Comma-separated array elements. -/
def parseElems : Nat → List Char → Option (List JValue × List Char)
  | 0, _ => none
  | fuel + 1, cs =>
    match parseVal fuel cs with
    | some (v, rest) =>
      match skipWs rest with
      | ',' :: rest2 => (parseElems fuel rest2).map (fun p => (v :: p.1, p.2))
      | c2 :: rest2 => if c2 = ']' then some (v :: [], rest2) else none
      | [] => none
    | none => none
end

/-- `json.loads` on a character list: one complete JSON document, with only
whitespace allowed after it.  (The non-standard `NaN`/`Infinity` constants
CPython additionally accepts have no finite decimal value and are not
modelled; no claim exercises them.) -/
def jsonLoads (cs : List Char) : Option JValue :=
  match parseVal (2 * cs.length + 2) cs with
  | some (v, rest) => if skipWs rest = [] then some v else none
  | none => none

/-! ## Python numeric coercions

`run_simulation` applies `float(...)` to the `confidence` field and
`int(...)` to the `priority_score` field of the decoded dict.  These
builtins raise `ValueError`/`TypeError` on non-coercible values, which is
modelled by `none`. -/

/-- Python `float(s)` on a string: optional sign, decimal digits with an
optional fraction and exponent, surrounded by optional whitespace.  (The
`inf`/`nan` spellings and digit underscores accepted by CPython are not
modelled; no claim exercises them.) -/
def floatOfString (s : String) : Option PyNum :=
  let cs := skipWs s.data
  let (neg, cs1) := match cs with
    | '-' :: t => (true, t)
    | '+' :: t => (false, t)
    | _ => (false, cs)
  let (ids, cs2) := takeDigits cs1
  let (fds, cs3) : Option (List Nat) × List Char := match cs2 with
    | '.' :: t => let (ds, r) := takeDigits t; (some ds, r)
    | _ => (none, cs2)
  if ids = [] ∧ fds.getD [] = [] then none
  else
    let (eo, cs4) : Option (Bool × List Nat) × List Char := match cs3 with
      | c :: t =>
        if c = 'e' ∨ c = 'E' then
          match t with
          | '+' :: t' => let (ds, r) := takeDigits t'; (some (false, ds), r)
          | '-' :: t' => let (ds, r) := takeDigits t'; (some (true, ds), r)
          | _ => let (ds, r) := takeDigits t; (some (false, ds), r)
        else (none, c :: t)
      | [] => (none, [])
    match eo with
    | some (_, []) => none
    | _ =>
      if skipWs cs4 ≠ [] then none
      else some (mkDecimal neg ids (fds.getD []) eo)

/-- Python `int(s)` on a string: optional sign and decimal digits only. -/
def intOfString (s : String) : Option ℤ :=
  let cs := skipWs s.data
  let (neg, cs1) := match cs with
    | '-' :: t => (true, t)
    | '+' :: t => (false, t)
    | _ => (false, cs)
  let (ids, cs2) := takeDigits cs1
  if ids = [] ∨ skipWs cs2 ≠ [] then none
  else some (if neg then -(natOfDigits ids : ℤ) else (natOfDigits ids : ℤ))

/-- Python `float(v)` on a JSON value: numbers and bools coerce, numeric
strings parse, everything else raises (`none`). -/
def pyFloat : JValue → Option PyNum
  | .jnull => none
  | .jbool b => some (if b then { m := 1, e := 0 } else { m := 0, e := 0 })
  | .jnum n => some n
  | .jstr s => floatOfString s
  | .jarr _ => none
  | .jobj _ => none

/-- Python `int(v)` on a JSON value: bools and numbers coerce (floats
truncate toward zero), integer-literal strings parse, everything else
raises (`none`). -/
def pyInt : JValue → Option ℤ
  | .jnull => none
  | .jbool b => some (if b then 1 else 0)
  | .jnum n => some (Int.tdiv n.m ((10 : ℤ) ^ n.e))
  | .jstr s => intOfString s
  | .jarr _ => none
  | .jobj _ => none

/-! ## The parse step of `run_simulation` (oracle_engine.py lines 208-236) -/

/-- Python `str.find(c)`: index of the first occurrence, `-1` if absent. -/
def pyFind (s : String) (c : Char) : Int :=
  match s.data.findIdx? (· = c) with
  | some n => (n : Int)
  | none => -1

/-- Python `str.rfind(c)`: index of the last occurrence, `-1` if absent. -/
def pyRFind (s : String) (c : Char) : Int :=
  match s.data.reverse.findIdx? (· = c) with
  | some k => ((s.data.length - 1 - k : Nat) : Int)
  | none => -1

/-- Failure modes of `run_simulation` that escape the source's local
`try/except json.JSONDecodeError` boundary. -/
inductive PErr where
  | floatCoerce
  | intCoerce
  | attrErr
deriving DecidableEq, Repr

/-- Lines 209-217: slice the raw text from the first brace to the last
brace and decode it; `json.JSONDecodeError` (and absent braces) fall back
to an error dict carrying `outcome = "neutral"`.  A decode to a non-dict
cannot arise from a slice that starts at a brace, but is modelled as the
`AttributeError` that `data.get` would then raise. -/
def responseData (raw : String) : Except PErr (List (String × JValue)) :=
  let js : Int := pyFind raw lbrace
  let je : Int := pyRFind raw rbrace + 1
  if 0 ≤ js ∧ js < je then
    match jsonLoads ((raw.data.drop js.toNat).take (je.toNat - js.toNat)) with
    | some (.jobj fs) => .ok fs
    | some _ => .error .attrErr
    | none => .ok [("error", .jstr "Invalid JSON"), ("outcome", .jstr "neutral")]
  else .ok [("error", .jstr "No JSON found"), ("outcome", .jstr "neutral")]

/-- The `SimulationResult` dataclass.  Field values that the source passes
through unvalidated keep the dynamic type `JValue`; `confidence` and
`priority_score` are numeric because the source coerces them with
`float`/`int`.  `timestamp` and `duration_ms` are wall-clock effects,
modelled as constants. -/
structure SimulationResult where
  simulation_id : String
  domain : String
  category : String
  hypothesis : String
  scenario : String
  outcome : JValue
  confidence : PyNum
  insights : JValue
  recommendations : JValue
  risks : JValue
  dependencies : JValue
  priority_score : ℤ
  raw_response : String
  timestamp : String
  duration_ms : ℤ
  metadata : List (String × JValue)
deriving Repr

/-- `f"ORC-{domain[:3].upper()}-{category[:3].upper()}-{sim_number:04d}"`. -/
def simId (domain category : String) (simNumber : Nat) : String :=
  let upper3 := fun (s : String) => String.mk ((s.data.take 3).map Char.toUpper)
  let digits := toString simNumber
  let pad := String.mk (List.replicate (4 - digits.length) '0')
  "ORC-" ++ upper3 domain ++ "-" ++ upper3 category ++ "-" ++ pad ++ digits

/-- Domain configuration as resolved by `run_simulation`:
`config.get("master_prompt", ...)` and
`config.get("categories", {}).get(category, {}).get("prompt", "")`. -/
structure EngineConfig where
  masterPrompt : String
  categoryPrompts : List (String × String)

/-- The `full_prompt` f-string of `run_simulation`. -/
def buildPrompt (cfg : EngineConfig) (domain category hypothesis : String) : String :=
  let categoryPrompt := ((cfg.categoryPrompts.lookup category).getD "")
  let upperDomain := String.mk (domain.data.map Char.toUpper)
  cfg.masterPrompt ++ "\n\n## DOMAIN: " ++ upperDomain ++ "\n## CATEGORY: " ++ category ++
    "\n\n" ++ categoryPrompt ++ "\n\n## HİPOTEZ\n" ++ hypothesis ++
    "\n\nAnaliz et ve JSON formatında cevap ver."

/-- Lines 208-236 of `run_simulation`, from the raw response text onward:
decode, then build the `SimulationResult`.  The dataclass arguments are
evaluated in source order, so the `float` coercion of `confidence` (line
226) raises before the `int` coercion of `priority_score` (line 231);
both coercions sit OUTSIDE the local `try/except json.JSONDecodeError`,
so their failures escape (`Except.error`). -/
def simulate (domain category hypothesis : String) (simNumber : Nat) (raw : String) :
    Except PErr SimulationResult :=
  match responseData raw with
  | .error e => .error e
  | .ok data =>
    match pyFloat (dGet data "confidence" (.jnum { m := 5, e := 1 })) with
    | none => .error .floatCoerce
    | some conf =>
      match pyInt (dGet data "priority_score" (.jnum { m := 50, e := 0 })) with
      | none => .error .intCoerce
      | some prio => .ok {
        simulation_id := simId domain category simNumber
        domain := domain
        category := category
        hypothesis := hypothesis
        scenario := String.mk (hypothesis.data.take 200)
        outcome := dGet data "outcome" (.jstr "neutral")
        confidence := conf
        insights := dGet data "insights" (.jarr [])
        recommendations := dGet data "recommendations" (.jarr [])
        risks := dGet data "risks" (.jarr [])
        dependencies := dGet data "dependencies" (.jarr [])
        priority_score := prio
        raw_response := raw
        timestamp := ""
        duration_ms := 0
        metadata := [("summary", dGet data "summary" (.jstr ""))] }

/-! ## `GeminiClient.generate` (oracle_engine.py lines 74-123)

The HTTP environment is a function from the 0-based attempt index to the
attempt's outcome.  `Attempt.response status jsonBody text` models one
HTTP response: `jsonBody` is the result of `await response.json()`
(`Except.error` when the body is not JSON, which the source's blanket
`except Exception` turns into the 2-second-sleep retry path), `text` the
result of `await response.text()`.  `Attempt.netError` models a
transport-level exception from the request itself.  The prompt,
temperature and model name (lines 76-89) only shape the request payload,
never the control flow of the retry loop, so they are absorbed into the
environment. -/

inductive Attempt where
  | response (status : Nat) (jsonBody : Except Unit JValue) (text : String)
  | netError

/-- Events of one `generate` call: HTTP attempts, the 429 backoff sleep of
`(attempt+1)*5` seconds, the 2-second sleep of the exception handler, and
the log line of the generic non-200 branch. -/
inductive GEvent where
  | call (i : Nat)
  | sleepRate (secs : Nat)
  | sleepErr
  | logStatus (code : Nat)
deriving DecidableEq, Repr

/-- `data.get(k, dflt)`: `AttributeError` (modelled as `Except.error`)
unless the receiver is a dict. -/
def pyGet (v : JValue) (k : String) (dflt : JValue) : Except Unit JValue :=
  match v with
  | .jobj fs => .ok ((fs.lookup k).getD dflt)
  | _ => .error ()

/-- Python `v[0]`: first element of a list, first character of a string;
`IndexError`/`TypeError`/`KeyError` otherwise. -/
def pySub0 (v : JValue) : Except Unit JValue :=
  match v with
  | .jarr (x :: _) => .ok x
  | .jarr [] => .error ()
  | .jstr s =>
    match s.data with
    | c :: _ => .ok (.jstr (String.mk [c]))
    | [] => .error ()
  | _ => .error ()

/-- Python `for part in v`: lists yield elements, dicts yield their keys,
strings yield 1-character strings; other values raise `TypeError`. -/
def pyIter : JValue → Except Unit (List JValue)
  | .jarr xs => .ok xs
  | .jobj fs => .ok (fs.map (fun p => .jstr p.1))
  | .jstr s => .ok (s.data.map (fun c => .jstr (String.mk [c])))
  | _ => .error ()

/-- Substring containment on character lists. -/
def containsSub (hay needle : List Char) : Bool :=
  (List.range (hay.length + 1)).any (fun i => needle.isPrefixOf (hay.drop i))

/-- Python `"text" in part`: key membership for dicts, substring test for
strings, element equality for lists; `TypeError` otherwise. -/
def pyContainsText (v : JValue) : Except Unit Bool :=
  match v with
  | .jobj fs => .ok ((fs.lookup "text").isSome)
  | .jstr s => .ok (containsSub s.data "text".data)
  | .jarr xs => .ok (xs.any (fun x => jstrEq x "text"))
  | _ => .error ()

/-- Python `part["text"]`. -/
def pySubText (v : JValue) : Except Unit JValue :=
  match v with
  | .jobj fs =>
    match fs.lookup "text" with
    | some x => .ok x
    | none => .error ()
  | _ => .error ()

/-- Lines 99-102: `text_response` starts as `""` and is overwritten by
`part["text"]` for EVERY part carrying a `"text"` key, so the last such
part wins. -/
def textLoop : List JValue → JValue → Except Unit JValue
  | [], acc => .ok acc
  | p :: ps, acc =>
    match pyContainsText p with
    | .error u => .error u
    | .ok false => textLoop ps acc
    | .ok true =>
      match pySubText p with
      | .error u => .error u
      | .ok t => textLoop ps t

/-- Lines 104-107: `usage = data.get("usageMetadata", {})`; when truthy,
`self.total_tokens += usage.get("totalTokenCount", 0)` — the accumulated
total itself is not tracked here (no claim mentions it), but the
exceptions this statement can raise are: `.get` on a truthy non-dict
(`AttributeError`) and `int += non-number` (`TypeError`). -/
def usageStep (data : JValue) : Except Unit Unit :=
  match pyGet data "usageMetadata" (.jobj []) with
  | .error u => .error u
  | .ok usage =>
    if pyTruthy usage then
      match pyGet usage "totalTokenCount" (.jnum { m := 0, e := 0 }) with
      | .error u => .error u
      | .ok (.jnum _) => .ok ()
      | .ok (.jbool _) => .ok ()
      | .ok _ => .error ()
    else .ok ()

/-- `'\x7b"error": "No text in response"\x7d'` (line 109). -/
def noTextSentinel : String := "\x7b\"error\": \"No text in response\"\x7d"

/-- `'\x7b"error": "Failed after retries"\x7d'` (line 123). -/
def failedSentinel : String := "\x7b\"error\": \"Failed after retries\"\x7d"

/-- Line 96: `data.get("candidates", [\x7b\x7d])[0].get("content",
\x7b\x7d).get("parts", [])`. -/
def partsChain (data : JValue) : Except Unit JValue :=
  match pyGet data "candidates" (.jarr [.jobj []]) with
  | .error u => .error u
  | .ok cands =>
    match pySub0 cands with
    | .error u => .error u
    | .ok c0 =>
      match pyGet c0 "content" (.jobj []) with
      | .error u => .error u
      | .ok content => pyGet content "parts" (.jarr [])

/-- Lines 95-109, the status-200 body processing: any raised exception
(`Except.error`) is swallowed by the `except Exception` handler and leads
to the next attempt instead of a return. -/
def processBody (data : JValue) : Except Unit JValue :=
  match partsChain data with
  | .error u => .error u
  | .ok parts =>
    match pyIter parts with
    | .error u => .error u
    | .ok elems =>
      match textLoop elems (.jstr "") with
      | .error u => .error u
      | .ok t =>
        match usageStep data with
        | .error u => .error u
        | .ok _ => .ok (if pyTruthy t then t else .jstr noTextSentinel)

/-- The retry loop of `generate` over the (0-based) attempt indices still
to try; returns the Python value handed back to the caller plus the event
trace.  `range(RETRY_ATTEMPTS)` with `RETRY_ATTEMPTS = 3` instantiates
`idxs = [0, 1, 2]`; falling off the loop returns the terminal sentinel. -/
def genStep (env : Nat → Attempt) : List Nat → JValue × List GEvent
  | [] => (.jstr failedSentinel, [])
  | i :: rest =>
    match env i with
    | .response s jb _t =>
      if s = 200 then
        match jb with
        | .ok b =>
          match processBody b with
          | .ok v => (v, [.call i])
          | .error _ =>
            ((genStep env rest).1, .call i :: .sleepErr :: (genStep env rest).2)
        | .error _ =>
          ((genStep env rest).1, .call i :: .sleepErr :: (genStep env rest).2)
      else if s = 429 then
        ((genStep env rest).1, .call i :: .sleepRate ((i + 1) * 5) :: (genStep env rest).2)
      else
        ((genStep env rest).1, .call i :: .logStatus s :: (genStep env rest).2)
    | .netError =>
      ((genStep env rest).1, .call i :: .sleepErr :: (genStep env rest).2)

/-- `GeminiClient.generate`: 3 attempts, then the terminal sentinel. -/
def generate (env : Nat → Attempt) : JValue × List GEvent :=
  genStep env [0, 1, 2]

/-- Whether one attempt makes `generate` return (HTTP 200 whose body
processing raises no exception). -/
def attemptReturns (a : Attempt) : Bool :=
  match a with
  | .response s jb _ =>
    if s = 200 then
      match jb with
      | .ok b => (processBody b).isOk
      | .error _ => false
    else false
  | .netError => false

def isCall : GEvent → Bool
  | .call _ => true
  | _ => false

/-- Number of HTTP delivery attempts in a trace. -/
def numCalls (evs : List GEvent) : Nat := evs.countP isCall

/-! ## `OracleEngine.run_category` / `run_all` (lines 238-285)

The client used by the scheduler is modelled as an oracle from the rendered
prompt to the raw text `client.generate` hands back (the client layer's own
behaviour is verified separately above).  The loop body of `run_category`
runs entirely inside `async with semaphore`, and each iteration is awaited
to completion before the next starts, so the run is a sequential event
trace; `Ev` records the per-item scheduler events. -/

inductive Ev where
  | acquire
  | runSim (category hypothesis : String)
  | appendLocal
  | appendGlobal
  | progress (done total : Nat) (icon : String)
  | sleepPacing
  | release
deriving DecidableEq, Repr

/-- The percentage the progress indicator prints for the `done`-th of
`total` hypotheses: `((i + 1) / total) * 100` (line 256).  Evaluated only
inside the loop body, so `total ≥ 1` whenever it runs — an empty category
never reaches this division (claim C10). -/
def progressPct (done total : Nat) : ℚ := (done : ℚ) / (total : ℚ) * 100

/-- Line 257: `"+" if positive else "-" if negative else "o"`. -/
def outcomeIcon (r : SimulationResult) : String :=
  if jstrEq r.outcome "positive" then "+"
  else if jstrEq r.outcome "negative" then "-"
  else "o"

/-- The loop of `run_category` (lines 249-261) from loop index `i`:
`async with semaphore` acquires on entry and releases on exit of the
block — i.e. AFTER the progress print and the pacing sleep on the normal
path, and exactly once (before the exception propagates) when
`run_simulation` raises.  Returns
`(category-local results, new self.results)` (or the propagated error)
together with the event trace. -/
def runCatGo (env : String → String) (domain : String) (cfg : EngineConfig)
    (category : String) (total : Nat) :
    Nat → List String → List SimulationResult →
      Except PErr (List SimulationResult × List SimulationResult) × List Ev
  | _, [], glob => (.ok ([], glob), [])
  | i, h :: rest, glob =>
    let raw := env (buildPrompt cfg domain category h)
    match simulate domain category h (i + 1) raw with
    | .error e => (.error e, [.acquire, .runSim category h, .release])
    | .ok r =>
      let evs := [.acquire, .runSim category h, .appendLocal, .appendGlobal,
        .progress (i + 1) total (outcomeIcon r),
        .sleepPacing, .release]
      let (res, evs') := runCatGo env domain cfg category total (i + 1) rest (glob ++ [r])
      match res with
      | .error e => (.error e, evs ++ evs')
      | .ok (locs, g) => (.ok (r :: locs, g), evs ++ evs')

/-- `run_category(client, category, hypotheses, semaphore)`:
`total = len(hypotheses)`, loop from `enumerate(hypotheses)`. -/
def runCategory (env : String → String) (domain : String) (cfg : EngineConfig)
    (category : String) (hypotheses : List String) (glob : List SimulationResult) :
    Except PErr (List SimulationResult × List SimulationResult) × List Ev :=
  runCatGo env domain cfg category hypotheses.length 0 hypotheses glob

/-- The category loop of `run_all` (lines 270-278), threading
`self.results`; returns the final `self.results` that `run_all` hands
back.  (`_save_results`, banner prints and the summary are I/O sinks with
no effect on the returned collection.) -/
def runAllGo (env : String → String) (domain : String) (cfg : EngineConfig) :
    List (String × List String) → List SimulationResult →
      Except PErr (List SimulationResult) × List Ev
  | [], glob => (.ok glob, [])
  | (c, hs) :: rest, glob =>
    let (res, evs) := runCategory env domain cfg c hs glob
    match res with
    | .error e => (.error e, evs)
    | .ok (_locs, g) =>
      let (res', evs') := runAllGo env domain cfg rest g
      (res', evs ++ evs')

/-- `run_all(categories, output_dir)` with an initially empty
`self.results`. -/
def runAll (env : String → String) (domain : String) (cfg : EngineConfig)
    (cats : List (String × List String)) :
    Except PErr (List SimulationResult) × List Ev :=
  runAllGo env domain cfg cats []

/-! ## Hypothesis selection in `main` (lines 408-421) -/

/-- Lines 409-420 of `main`: `hypotheses = config.get("hypotheses", {})`;
`sys.exit(1)` (modelled as `Except.error`) iff that dict is falsy — i.e.
empty — and only then; AFTERWARDS the `--category` narrowing replaces it
by `\x7bargs.category: hypotheses.get(args.category, [])\x7d` and the
`--count` slicing truncates each list (`if args.count:` is false for
`0`). The surviving mapping is what `run_all` is invoked on. -/
def selectHypotheses (config : List (String × List String))
    (categoryArg : Option String) (countArg : Option Nat) :
    Except Unit (List (String × List String)) :=
  if config.isEmpty then .error ()
  else
    let narrowed := match categoryArg with
      | some c => [(c, (config.lookup c).getD [])]
      | none => config
    let sliced := match countArg with
      | some n => if n = 0 then narrowed else narrowed.map (fun p => (p.1, p.2.take n))
      | none => narrowed
    .ok sliced

/-- Total number of hypotheses across all categories
(`sum(len(v) for v in hypotheses.values())`). -/
def totalHyps (cats : List (String × List String)) : Nat :=
  (cats.map (fun p => p.2.length)).sum

/-! ## Client-layer lemmas -/

theorem genStep_cons_nonret (env : Nat → Attempt) (i : Nat) (rest : List Nat)
    (h : attemptReturns (env i) = false) :
    ∃ e, genStep env (i :: rest) =
      ((genStep env rest).1, .call i :: e :: (genStep env rest).2) ∧ isCall e = false := by
  rcases he : env i with ⟨s, jb, t⟩ | _
  · by_cases hs : s = 200
    · subst hs
      rcases jb with u | b
      · exact ⟨.sleepErr, by simp [genStep, he], rfl⟩
      · rw [he] at h
        simp only [attemptReturns, if_pos rfl] at h
        rcases hpb : processBody b with u2 | v
        · exact ⟨.sleepErr, by simp [genStep, he, hpb], rfl⟩
        · rw [hpb] at h
          simp [Except.isOk, Except.toBool] at h
    · by_cases h429 : s = 429
      · subst h429
        exact ⟨.sleepRate ((i + 1) * 5), by simp [genStep, he], rfl⟩
      · exact ⟨.logStatus s, by simp [genStep, he, hs, h429], rfl⟩
  · exact ⟨.sleepErr, by simp [genStep, he], rfl⟩

theorem genStep_cons_ret (env : Nat → Attempt) (i : Nat) (rest : List Nat)
    (h : attemptReturns (env i) = true) :
    ∃ b t v, env i = .response 200 (.ok b) t ∧ processBody b = .ok v ∧
      genStep env (i :: rest) = (v, [.call i]) := by
  rcases he : env i with ⟨s, jb, t⟩ | _
  · by_cases hs : s = 200
    · subst hs
      rcases jb with u | b
      · rw [he] at h
        simp [attemptReturns] at h
      · rw [he] at h
        simp only [attemptReturns, if_pos rfl] at h
        rcases hpb : processBody b with u2 | v
        · rw [hpb] at h
          simp [Except.isOk, Except.toBool] at h
        · exact ⟨b, t, v, rfl, hpb, by simp [genStep, he, hpb]⟩
    · rw [he] at h
      simp [attemptReturns, hs] at h
  · rw [he] at h
    simp [attemptReturns] at h

theorem genStep_sentinel (env : Nat → Attempt) (l : List Nat)
    (h : ∀ i ∈ l, attemptReturns (env i) = false) :
    (genStep env l).1 = .jstr failedSentinel := by
  induction l with
  | nil => rfl
  | cons i rest ih =>
    obtain ⟨e, hgs, -⟩ := genStep_cons_nonret env i rest (h i (by simp))
    rw [hgs]
    exact ih (fun j hj => h j (by simp [hj]))

theorem genStep_calls_le (env : Nat → Attempt) (l : List Nat) :
    numCalls (genStep env l).2 ≤ l.length := by
  induction l with
  | nil => simp [genStep, numCalls]
  | cons i rest ih =>
    by_cases hr : attemptReturns (env i)
    · obtain ⟨b, t, v, -, -, hgs⟩ := genStep_cons_ret env i rest hr
      rw [hgs]
      simp [numCalls, isCall]
    · obtain ⟨e, hgs, hc⟩ := genStep_cons_nonret env i rest (by simpa using hr)
      rw [hgs]
      show numCalls (GEvent.call i :: e :: (genStep env rest).2) ≤ rest.length + 1
      have hcount : numCalls (GEvent.call i :: e :: (genStep env rest).2)
          = numCalls (genStep env rest).2 + 1 := by
        simp only [numCalls, List.countP_cons, hc]
        simp [isCall]
      rw [hcount]
      exact Nat.add_le_add_right ih 1

theorem genStep_events_head (env : Nat → Attempt) (i : Nat) (rest : List Nat) :
    ∃ tl, (genStep env (i :: rest)).2 = .call i :: tl := by
  by_cases hr : attemptReturns (env i)
  · obtain ⟨b, t, v, -, -, hgs⟩ := genStep_cons_ret env i rest hr
    exact ⟨[], by rw [hgs]⟩
  · obtain ⟨e, hgs, -⟩ := genStep_cons_nonret env i rest (by simpa using hr)
    exact ⟨e :: (genStep env rest).2, by rw [hgs]⟩

/-- Interface well-typedness of one 200-body: every `part["text"]` value
that the extraction loop can read off the `parts` list is a `str`.  (§6 of
the spec fixes `candidates[0].content.parts[*].text` as the generated
TEXT; a remote that put a non-string there would make the source hand a
non-string back to its caller.) -/
def goodBody (data : JValue) : Prop :=
  ∀ parts elems, partsChain data = .ok parts → pyIter parts = .ok elems →
    ∀ p ∈ elems, ∀ v, pySubText p = .ok v → ∃ s, v = .jstr s

theorem textLoop_jstr (elems : List JValue)
    (h : ∀ p ∈ elems, ∀ v, pySubText p = .ok v → ∃ s, v = .jstr s) :
    ∀ acc : JValue, (∃ s0, acc = .jstr s0) → ∀ t, textLoop elems acc = .ok t →
      ∃ s, t = .jstr s := by
  induction elems with
  | nil =>
    intro acc hacc t ht
    simp only [textLoop, Except.ok.injEq] at ht
    exact ht ▸ hacc
  | cons p ps ih =>
    intro acc hacc t ht
    rcases hc : pyContainsText p with u | c
    · simp [textLoop, hc] at ht
    · rcases c with _ | _
      · simp only [textLoop, hc] at ht
        exact ih (fun q hq => h q (by simp [hq])) acc hacc t ht
      · rcases hv : pySubText p with u2 | v
        · simp [textLoop, hc, hv] at ht
        · simp only [textLoop, hc, hv] at ht
          exact ih (fun q hq => h q (by simp [hq])) v (h p (by simp) v hv) t ht

theorem processBody_jstr (data v : JValue) (hg : goodBody data)
    (h : processBody data = .ok v) : ∃ s, v = .jstr s := by
  rcases hpc : partsChain data with u | parts
  · simp [processBody, hpc] at h
  · rcases hit : pyIter parts with u2 | elems
    · simp [processBody, hpc, hit] at h
    · rcases htl : textLoop elems (.jstr "") with u3 | t
      · simp [processBody, hpc, hit, htl] at h
      · rcases hus : usageStep data with u5 | u4
        · simp [processBody, hpc, hit, htl, hus] at h
        · simp only [processBody, hpc, hit, htl, hus, Except.ok.injEq] at h
          obtain ⟨s, rfl⟩ :=
            textLoop_jstr elems (hg parts elems hpc hit) (.jstr "") ⟨"", rfl⟩ t htl
          subst h
          by_cases hT : pyTruthy (JValue.jstr s) = true
          · exact ⟨s, by simp [hT]⟩
          · exact ⟨noTextSentinel, by simp [hT]⟩

theorem genStep_jstr (env : Nat → Attempt) (l : List Nat)
    (hg : ∀ i ∈ l, ∀ b t, env i = .response 200 (.ok b) t → goodBody b) :
    ∃ s, (genStep env l).1 = .jstr s := by
  induction l with
  | nil => exact ⟨failedSentinel, rfl⟩
  | cons i rest ih =>
    by_cases hr : attemptReturns (env i) = true
    · obtain ⟨b, t, v, he, hpb, hgs⟩ := genStep_cons_ret env i rest hr
      obtain ⟨s, rfl⟩ := processBody_jstr b v (hg i (by simp) b t he) hpb
      exact ⟨s, by rw [hgs]⟩
    · obtain ⟨e, hgs, -⟩ := genStep_cons_nonret env i rest (by simpa using hr)
      rw [hgs]
      exact ih (fun j hj => hg j (by simp [hj]))

theorem numCalls_cons_call (i : Nat) (e : GEvent) (tl : List GEvent)
    (hc : isCall e = false) :
    numCalls (GEvent.call i :: e :: tl) = numCalls tl + 1 := by
  simp only [numCalls, List.countP_cons, hc]
  simp [isCall]

theorem genStep_calls_exact (env : Nat → Attempt) (l : List Nat)
    (h : ∀ i ∈ l, attemptReturns (env i) = false) :
    numCalls (genStep env l).2 = l.length := by
  induction l with
  | nil => simp [genStep, numCalls]
  | cons i rest ih =>
    obtain ⟨e, hgs, hc⟩ := genStep_cons_nonret env i rest (h i (by simp))
    rw [hgs]
    show numCalls (GEvent.call i :: e :: (genStep env rest).2) = rest.length + 1
    rw [numCalls_cons_call i e _ hc, ih (fun j hj => h j (by simp [hj]))]

/-- Status code of an attempt's HTTP response (`none` = no response at
all, i.e. a transport exception). -/
def attemptStatus : Attempt → Option Nat
  | .response s _ _ => some s
  | .netError => none

theorem attemptReturns_false_of_status (a : Attempt) (s : Nat)
    (hs : attemptStatus a = some s) (h200 : s ≠ 200) :
    attemptReturns a = false := by
  rcases a with ⟨s', jb, t⟩ | _
  · simp only [attemptStatus, Option.some.injEq] at hs
    subst hs
    simp [attemptReturns, h200]
  · rfl

theorem genStep_cons_429 (env : Nat → Attempt) (i : Nat) (rest : List Nat)
    (jb : Except Unit JValue) (t : String) (he : env i = .response 429 jb t) :
    genStep env (i :: rest) =
      ((genStep env rest).1, .call i :: .sleepRate ((i + 1) * 5) :: (genStep env rest).2) := by
  simp [genStep, he]

/-- C2: `generate` never raises to its caller — it is a total function of
the attempt environment, because every exception inside the loop body is
swallowed by the blanket `except Exception` — and it always returns a
string provided every 200-body is well-typed per the documented response
shape; whenever no attempt yields an early HTTP-200 return, the result is
exactly the sentinel `'\x7b"error": "Failed after retries"\x7d'`. -/
theorem claim_c2_generate_total_sentinel (env : Nat → Attempt) :
    ((∀ i, i < 3 → attemptReturns (env i) = false) →
      (generate env).1 = .jstr failedSentinel) ∧
    ((∀ i, i < 3 → ∀ b t, env i = .response 200 (.ok b) t → goodBody b) →
      ∃ s, (generate env).1 = .jstr s) := by
  constructor
  · intro h
    refine genStep_sentinel env [0, 1, 2] ?_
    intro i hi
    have h3 : i < 3 := by
      have hor : i = 0 ∨ i = 1 ∨ i = 2 := by simpa using hi
      omega
    exact h i h3
  · intro hg
    refine genStep_jstr env [0, 1, 2] ?_
    intro i hi
    have h3 : i < 3 := by
      have hor : i = 0 ∨ i = 1 ∨ i = 2 := by simpa using hi
      omega
    exact hg i h3

/-- Witness for C2 at the concrete environment that always answers
HTTP 500: no early return, hence exactly the terminal sentinel. -/
theorem claim_c2_witness :
    (∀ i, i < 3 →
      attemptReturns ((fun _ => Attempt.response 500 (.error ()) "boom") i) = false) ∧
    (generate (fun _ => Attempt.response 500 (.error ()) "boom")).1 = .jstr failedSentinel :=
  ⟨by decide,
   (claim_c2_generate_total_sentinel (fun _ => Attempt.response 500 (.error ()) "boom")).1
     (by decide)⟩

/-- C4: (a) at most 3 delivery attempts in any run; (b) an HTTP 200 whose
body processing succeeds returns immediately — when it happens on attempt
`i` (0-based) after `i` non-returning attempts, exactly `i + 1` calls are
made; (c) after an HTTP 429 on attempt `i` the client sleeps
`(i + 1) * 5` seconds and, if attempts remain, makes attempt `i + 1`;
(d) an endpoint answering HTTP 500 on every attempt yields the terminal
sentinel after exactly 3 attempts; (e) 429 twice then a successful 200
yields the extracted text on the third attempt, with backoff sleeps of
5 then 10 seconds. -/
theorem claim_c4_retry_and_backoff (env : Nat → Attempt) :
    numCalls (generate env).2 ≤ 3 ∧
    (∀ i, i < 3 → (∀ j, j < i → attemptReturns (env j) = false) →
      attemptReturns (env i) = true → numCalls (generate env).2 = i + 1) ∧
    (∀ i jb t, i < 3 → (∀ j, j < i → attemptReturns (env j) = false) →
      env i = .response 429 jb t →
      GEvent.sleepRate ((i + 1) * 5) ∈ (generate env).2 ∧
        (i + 1 < 3 → GEvent.call (i + 1) ∈ (generate env).2)) ∧
    ((∀ i, i < 3 → attemptStatus (env i) = some 500) →
      (generate env).1 = .jstr failedSentinel ∧ numCalls (generate env).2 = 3) ∧
    (∀ jb0 t0 jb1 t1 b t2 v,
      env 0 = .response 429 jb0 t0 → env 1 = .response 429 jb1 t1 →
      env 2 = .response 200 (.ok b) t2 → processBody b = .ok v →
      (generate env).1 = v ∧
        (generate env).2 =
          [.call 0, .sleepRate 5, .call 1, .sleepRate 10, .call 2]) := by
  refine ⟨genStep_calls_le env [0, 1, 2], ?_, ?_, ?_, ?_⟩
  · -- (b) immediate return after i failures
    intro i hi hbefore hret
    interval_cases i
    · obtain ⟨b, t, v, -, -, hgs⟩ := genStep_cons_ret env 0 [1, 2] hret
      rw [generate, hgs]
      rfl
    · obtain ⟨e0, hgs0, hc0⟩ := genStep_cons_nonret env 0 [1, 2] (hbefore 0 (by omega))
      obtain ⟨b, t, v, -, -, hgs1⟩ := genStep_cons_ret env 1 [2] hret
      rw [generate, hgs0]
      show numCalls (GEvent.call 0 :: e0 :: (genStep env [1, 2]).2) = 2
      rw [numCalls_cons_call 0 e0 _ hc0, hgs1]
      rfl
    · obtain ⟨e0, hgs0, hc0⟩ := genStep_cons_nonret env 0 [1, 2] (hbefore 0 (by omega))
      obtain ⟨e1, hgs1, hc1⟩ := genStep_cons_nonret env 1 [2] (hbefore 1 (by omega))
      obtain ⟨b, t, v, -, -, hgs2⟩ := genStep_cons_ret env 2 [] hret
      rw [generate, hgs0]
      show numCalls (GEvent.call 0 :: e0 :: (genStep env [1, 2]).2) = 3
      rw [numCalls_cons_call 0 e0 _ hc0, hgs1]
      show numCalls (GEvent.call 1 :: e1 :: (genStep env [2]).2) + 1 = 3
      rw [numCalls_cons_call 1 e1 _ hc1, hgs2]
      rfl
  · -- (c) 429 backoff and retry
    intro i jb t hi hbefore he
    interval_cases i
    · rw [generate, genStep_cons_429 env 0 [1, 2] jb t he]
      constructor
      · simp
      · intro _hlt
        obtain ⟨tl, htl⟩ := genStep_events_head env 1 [2]
        simp [htl]
    · obtain ⟨e0, hgs0, -⟩ := genStep_cons_nonret env 0 [1, 2] (hbefore 0 (by omega))
      rw [generate, hgs0]
      rw [genStep_cons_429 env 1 [2] jb t he]
      constructor
      · simp
      · intro _hlt
        obtain ⟨tl, htl⟩ := genStep_events_head env 2 []
        simp [htl]
    · obtain ⟨e0, hgs0, -⟩ := genStep_cons_nonret env 0 [1, 2] (hbefore 0 (by omega))
      obtain ⟨e1, hgs1, -⟩ := genStep_cons_nonret env 1 [2] (hbefore 1 (by omega))
      rw [generate, hgs0]
      constructor
      · rw [hgs1, genStep_cons_429 env 2 [] jb t he]
        simp
      · intro hcontra
        omega
  · -- (d) always-500 endpoint
    intro h500
    have hfalse : ∀ i ∈ [0, 1, 2], attemptReturns (env i) = false := by
      intro i hi
      have hor : i = 0 ∨ i = 1 ∨ i = 2 := by simpa using hi
      have h3 : i < 3 := by omega
      exact attemptReturns_false_of_status (env i) 500 (h500 i h3) (by omega)
    exact ⟨genStep_sentinel env [0, 1, 2] hfalse, genStep_calls_exact env [0, 1, 2] hfalse⟩
  · -- (e) 429, 429, 200
    intro jb0 t0 jb1 t1 b t2 v h0 h1 h2 hpb
    rw [generate, genStep_cons_429 env 0 [1, 2] jb0 t0 h0,
      genStep_cons_429 env 1 [2] jb1 t1 h1]
    have hgs2 : genStep env [2] = (v, [GEvent.call 2]) := by
      simp [genStep, h2, hpb]
    rw [hgs2]
    exact ⟨rfl, by norm_num⟩

/-- Witness for C4 at the all-500 environment (conjunct (d), its
hypothesis discharged by `decide`) and conjunct (a). -/
theorem claim_c4_witness :
    numCalls (generate (fun _ => Attempt.response 500 (.error ()) "err")).2 ≤ 3 ∧
    (generate (fun _ => Attempt.response 500 (.error ()) "err")).1 = .jstr failedSentinel ∧
    numCalls (generate (fun _ => Attempt.response 500 (.error ()) "err")).2 = 3 := by
  obtain ⟨ha, -, -, hd, -⟩ :=
    claim_c4_retry_and_backoff (fun _ => Attempt.response 500 (.error ()) "err")
  obtain ⟨hres, hcount⟩ := hd (by decide)
  exact ⟨ha, hres, hcount⟩

/-- `part["text"]` as the extraction loop reads it from a dict part:
present value or absent. -/
def partText (p : JValue) : Option JValue :=
  match p with
  | .jobj fs => fs.lookup "text"
  | _ => none

/-- On a parts list made of dicts, the extraction loop returns the LAST
`"text"` value, or the accumulator when no part carries one. -/
theorem textLoop_obj_last : ∀ (elems : List JValue),
    (∀ p ∈ elems, ∃ fs, p = .jobj fs) →
    ∀ acc, textLoop elems acc = .ok (List.getLastD (elems.filterMap partText) acc)
  | [], _, acc => rfl
  | p :: ps, hobj, acc => by
    obtain ⟨fs, hp⟩ := hobj p (by simp)
    subst hp
    rcases hl : fs.lookup "text" with _ | tv
    · simp only [textLoop, pyContainsText, hl, Option.isSome_none]
      rw [textLoop_obj_last ps (fun q hq => hobj q (by simp [hq])) acc]
      simp only [List.filterMap_cons, partText, hl]
    · simp only [textLoop, pyContainsText, hl, Option.isSome_some, pySubText]
      rw [textLoop_obj_last ps (fun q hq => hobj q (by simp [hq])) tv]
      simp only [List.filterMap_cons, partText, hl, List.getLastD_cons]

def partA : JValue := .jobj [("text", .jstr "A")]

def partB : JValue := .jobj [("text", .jstr "B")]

/-- A 200-body whose `parts` array carries two text fragments, "A" then
"B". -/
def bodyAB : JValue :=
  .jobj [("candidates", .jarr [.jobj [("content", .jobj [("parts", .jarr [partA, partB])])]])]

def envAB : Nat → Attempt := fun _ => .response 200 (.ok bodyAB) ""

/-- C5 counterexample: on a 200 response whose parts carry the text
fragments "A" then "B", `generate` returns "B" — the LAST fragment — not
the first fragment "A" the claim promises. -/
theorem claim_c5_counterexample :
    (generate envAB).1 = .jstr "B" ∧ (generate envAB).1 ≠ .jstr "A" := by
  have h : (generate envAB).1 = .jstr "B" := rfl
  refine ⟨h, ?_⟩
  rw [h]
  intro hc
  exact absurd (JValue.jstr.inj hc) (by decide)

/-- C5 corrected: on an HTTP 200 whose `candidates[0].content.parts` is a
list of dicts, `generate` returns — immediately, with exactly one call —
the LAST `"text"` fragment in the list (each part with a `"text"` key
overwrites the previous `text_response`), with any falsy final value
(in particular the empty string reached when no part carries text)
replaced by the sentinel `'\x7b"error": "No text in response"\x7d'`. -/
theorem claim_c5_amended (env : Nat → Attempt) (b : JValue) (t : String)
    (parts : List JValue)
    (he : env 0 = .response 200 (.ok b) t)
    (hchain : partsChain b = .ok (.jarr parts))
    (hobj : ∀ p ∈ parts, ∃ fs, p = .jobj fs)
    (hus : usageStep b = .ok ()) :
    (generate env).1 =
      (if pyTruthy (List.getLastD (parts.filterMap partText) (.jstr ""))
        then List.getLastD (parts.filterMap partText) (.jstr "")
        else .jstr noTextSentinel) ∧
    (generate env).2 = [.call 0] := by
  have hpb : processBody b =
      .ok (if pyTruthy (List.getLastD (parts.filterMap partText) (.jstr ""))
        then List.getLastD (parts.filterMap partText) (.jstr "")
        else .jstr noTextSentinel) := by
    simp only [processBody, hchain, pyIter, textLoop_obj_last parts hobj (.jstr ""), hus]
  constructor
  · rw [generate]
    simp [genStep, he, hpb]
  · rw [generate]
    simp [genStep, he, hpb]

/-- Witness for the corrected C5 at the concrete two-fragment body: the
result is the last fragment "B", delivered on a single call. -/
theorem claim_c5_amended_witness :
    envAB 0 = Attempt.response 200 (.ok bodyAB) "" ∧
    (generate envAB).1 = .jstr "B" ∧ (generate envAB).2 = [GEvent.call 0] := by
  have h := claim_c5_amended envAB bodyAB "" [partA, partB] rfl rfl
    (by
      intro p hp
      simp only [List.mem_cons, List.not_mem_nil, or_false] at hp
      rcases hp with rfl | rfl
      · exact ⟨[("text", .jstr "A")], rfl⟩
      · exact ⟨[("text", .jstr "B")], rfl⟩)
    rfl
  exact ⟨rfl, h.1.trans rfl, h.2⟩

/-! ## Scheduler-layer lemmas and claims -/

theorem simulate_ok_fields (domain category hyp : String) (n : Nat) (raw : String)
    (r : SimulationResult) (h : simulate domain category hyp n raw = .ok r) :
    r.category = category ∧ r.hypothesis = hyp ∧ r.simulation_id = simId domain category n := by
  rcases hrd : responseData raw with e | data
  · simp only [simulate, hrd] at h
    exact Except.noConfusion h
  · simp only [simulate, hrd] at h
    rcases hf : pyFloat (dGet data "confidence" (.jnum { m := 5, e := 1 })) with _ | conf
    · simp only [hf] at h
      exact Except.noConfusion h
    · simp only [hf] at h
      rcases hp : pyInt (dGet data "priority_score" (.jnum { m := 50, e := 0 })) with _ | prio
      · simp only [hp] at h
        exact Except.noConfusion h
      · simp only [hp] at h
        obtain rfl := Except.ok.inj h
        exact ⟨rfl, rfl, rfl⟩

theorem runCatGo_ok (env : String → String) (domain : String) (cfg : EngineConfig)
    (category : String) (total : Nat) :
    ∀ (hyps : List String) (i : Nat) (glob locs g : List SimulationResult) (evs : List Ev),
      runCatGo env domain cfg category total i hyps glob = (.ok (locs, g), evs) →
      g = glob ++ locs ∧
        List.Forall₂ (fun (r : SimulationResult) (hh : String) =>
          r.category = category ∧ r.hypothesis = hh) locs hyps
  | [], i, glob, locs, g, evs, h => by
    simp only [runCatGo, Prod.mk.injEq, Except.ok.injEq] at h
    obtain ⟨⟨hl, hg⟩, -⟩ := h
    subst hl
    subst hg
    exact ⟨(List.append_nil glob).symm, List.Forall₂.nil⟩
  | hh :: rest, i, glob, locs, g, evs, h => by
    rcases hsim : simulate domain category hh (i + 1) (env (buildPrompt cfg domain category hh))
      with e | r
    · simp [runCatGo, hsim] at h
    · rcases hrec : runCatGo env domain cfg category total (i + 1) rest (glob ++ [r])
        with ⟨res, evs2⟩
      rcases res with e2 | ⟨locs2, g2⟩
      · simp [runCatGo, hsim, hrec] at h
      · simp only [runCatGo, hsim, hrec, Prod.mk.injEq, Except.ok.injEq] at h
        obtain ⟨⟨hl, hg⟩, -⟩ := h
        subst hl
        subst hg
        obtain ⟨hg2, hfa⟩ :=
          runCatGo_ok env domain cfg category total rest (i + 1) (glob ++ [r]) locs2 g2 evs2 hrec
        refine ⟨by rw [hg2, List.append_assoc]; rfl, ?_⟩
        obtain ⟨hc, hhyp, -⟩ := simulate_ok_fields domain category hh (i + 1) _ r hsim
        exact List.Forall₂.cons ⟨hc, hhyp⟩ hfa

theorem runAllGo_ok (env : String → String) (domain : String) (cfg : EngineConfig) :
    ∀ (cats : List (String × List String)) (glob rs : List SimulationResult) (evs : List Ev),
      runAllGo env domain cfg cats glob = (.ok rs, evs) →
      ∃ blocks : List (List SimulationResult),
        rs = glob ++ blocks.flatten ∧
          List.Forall₂ (fun (blk : List SimulationResult) (p : String × List String) =>
            List.Forall₂ (fun r hh => r.category = p.1 ∧ r.hypothesis = hh) blk p.2) blocks cats
  | [], glob, rs, evs, h => by
    simp only [runAllGo, Prod.mk.injEq, Except.ok.injEq] at h
    obtain ⟨hl, -⟩ := h
    subst hl
    exact ⟨[], by simp, List.Forall₂.nil⟩
  | (c, hs) :: rest, glob, rs, evs, h => by
    rcases hcat : runCategory env domain cfg c hs glob with ⟨res, evs0⟩
    rcases res with e | ⟨locs, g⟩
    · simp [runAllGo, hcat] at h
    · rcases hrec : runAllGo env domain cfg rest g with ⟨res2, evs2⟩
      simp only [runAllGo, hcat, hrec] at h
      rcases res2 with e2 | rs2
      · simp at h
      · simp only [Prod.mk.injEq, Except.ok.injEq] at h
        obtain ⟨hl, -⟩ := h
        subst hl
        obtain ⟨hg, hfa⟩ :=
          runCatGo_ok env domain cfg c hs.length hs 0 glob locs g evs0 hcat
        obtain ⟨blocks, hbl, hfa2⟩ := runAllGo_ok env domain cfg rest g rs2 evs2 hrec
        refine ⟨locs :: blocks, ?_, List.Forall₂.cons hfa hfa2⟩
        rw [hbl, hg, List.flatten_cons, List.append_assoc]

theorem sum_lengths_of_blocks {blocks : List (List SimulationResult)}
    {cats : List (String × List String)}
    (h : List.Forall₂ (fun (blk : List SimulationResult) (p : String × List String) =>
      List.Forall₂ (fun r hh => r.category = p.1 ∧ r.hypothesis = hh) blk p.2) blocks cats) :
    (blocks.map List.length).sum = totalHyps cats := by
  induction h with
  | nil => rfl
  | @cons blk p blocks2 cats2 hpq hrest ih =>
    simp only [List.map_cons, List.sum_cons, totalHyps, hpq.length_eq] at *
    omega

/-- C3: whenever `run_all` returns normally, it hands back exactly one
`SimulationResult` per input hypothesis — the collection's length is the
total hypothesis count — and the collection is the concatenation of
per-category blocks in input category order, each block matching its
hypothesis list pointwise in order. -/
theorem claim_c3_runall_one_result_per_hypothesis (env : String → String)
    (domain : String) (cfg : EngineConfig) (cats : List (String × List String))
    (rs : List SimulationResult) (evs : List Ev)
    (h : runAll env domain cfg cats = (.ok rs, evs)) :
    rs.length = totalHyps cats ∧
    ∃ blocks : List (List SimulationResult),
      rs = blocks.flatten ∧
        List.Forall₂ (fun (blk : List SimulationResult) (p : String × List String) =>
          List.Forall₂ (fun r hh => r.category = p.1 ∧ r.hypothesis = hh) blk p.2) blocks cats := by
  obtain ⟨blocks, hbl, hfa⟩ := runAllGo_ok env domain cfg cats [] rs evs h
  rw [List.nil_append] at hbl
  subst hbl
  refine ⟨?_, blocks, rfl, hfa⟩
  rw [List.length_flatten]
  exact sum_lengths_of_blocks hfa

/-- A remote client oracle whose reply is always the empty string (the
parse step then takes its defaulted fallback path). -/
def schedEnv : String → String := fun _ => ""

def cfgW : EngineConfig := { masterPrompt := "", categoryPrompts := [] }

/-- The result record `simulate` produces for category "viability",
hypothesis "Subscription pricing model", sim number 1, raw reply "". -/
def resW : SimulationResult :=
  { simulation_id := "ORC-BUS-VIA-0001"
    domain := "business"
    category := "viability"
    hypothesis := "Subscription pricing model"
    scenario := "Subscription pricing model"
    outcome := .jstr "neutral"
    confidence := { m := 5, e := 1 }
    insights := .jarr []
    recommendations := .jarr []
    risks := .jarr []
    dependencies := .jarr []
    priority_score := 50
    raw_response := ""
    timestamp := ""
    duration_ms := 0
    metadata := [("summary", .jstr "")] }

def evsW : List Ev :=
  [.acquire, .runSim "viability" "Subscription pricing model", .appendLocal, .appendGlobal,
   .progress 1 1 "o", .sleepPacing, .release]

/-- Witness for C3 at one category with one hypothesis: `run_all` returns
exactly one result, whose count matches the total hypothesis count. -/
theorem claim_c3_witness :
    runAll schedEnv "business" cfgW [("viability", ["Subscription pricing model"])]
      = (.ok [resW], evsW) ∧
    [resW].length = totalHyps [("viability", ["Subscription pricing model"])] :=
  ⟨rfl,
   (claim_c3_runall_one_result_per_hypothesis schedEnv "business" cfgW
     [("viability", ["Subscription pricing model"])] [resW] evsW rfl).1⟩

/-- The per-item event block of a hypothesis whose simulation parses
(possibly degraded): acquire, remote call, both appends, the progress
indicator, the pacing sleep, and ONLY THEN the release. -/
def okChunk (category : String) (ch : List Ev) : Prop :=
  ∃ hh d t ic, ch = [.acquire, .runSim category hh, .appendLocal, .appendGlobal,
    .progress d t ic, .sleepPacing, .release]

/-- The per-item event block of a hypothesis whose simulation raises (the
coercion escape of C1): `async with` still releases exactly once before
the exception propagates. -/
def errChunk (category : String) (ch : List Ev) : Prop :=
  ∃ hh, ch = [.acquire, .runSim category hh, .release]

theorem runCatGo_chunks (env : String → String) (domain : String) (cfg : EngineConfig)
    (category : String) (total : Nat) :
    ∀ (hyps : List String) (i : Nat) (glob : List SimulationResult),
      ∃ chunks : List (List Ev),
        (runCatGo env domain cfg category total i hyps glob).2 = chunks.flatten ∧
          ∀ ch ∈ chunks, okChunk category ch ∨ errChunk category ch
  | [], i, glob => ⟨[], rfl, by simp⟩
  | hh :: rest, i, glob => by
    rcases hsim : simulate domain category hh (i + 1) (env (buildPrompt cfg domain category hh))
      with e | r
    · refine ⟨[[.acquire, .runSim category hh, .release]], ?_, ?_⟩
      · simp [runCatGo, hsim]
      · intro ch hch
        simp only [List.mem_singleton] at hch
        subst hch
        exact Or.inr ⟨hh, rfl⟩
    · obtain ⟨chunks, hev, hok⟩ :=
        runCatGo_chunks env domain cfg category total rest (i + 1) (glob ++ [r])
      refine ⟨[.acquire, .runSim category hh, .appendLocal, .appendGlobal,
        .progress (i + 1) total (outcomeIcon r),
        .sleepPacing, .release] :: chunks, ?_, ?_⟩
      · rcases hrec : runCatGo env domain cfg category total (i + 1) rest (glob ++ [r])
          with ⟨res, evs2⟩
        rcases res with e2 | ok2
        · simp only [runCatGo, hsim, hrec, List.flatten_cons]
          rw [hrec] at hev
          simp only at hev
          rw [hev]
        · simp only [runCatGo, hsim, hrec, List.flatten_cons]
          rw [hrec] at hev
          simp only at hev
          rw [hev]
      · intro ch hch
        rcases List.mem_cons.mp hch with rfl | hmem
        · exact Or.inl ⟨hh, i + 1, total, _, rfl⟩
        · exact hok ch hmem

theorem chunk_counts (category : String) (ch : List Ev)
    (h : okChunk category ch ∨ errChunk category ch) :
    ch.count Ev.acquire = 1 ∧ ch.count Ev.release = 1 := by
  rcases h with ⟨hh, d, t, q, ic, rfl⟩ | ⟨hh, rfl⟩ <;>
    simp [List.count_cons, List.count_nil]

/-- C6 counterexample: for the concrete one-hypothesis run, the actual
per-item trace places the pacing sleep BEFORE the release — the
concurrency unit is held through the progress print and the pacing delay
(`async with semaphore` only releases at block exit), contradicting the
claimed release-before-pacing order. -/
theorem claim_c6_counterexample :
    (runCategory schedEnv "business" cfgW "viability" ["Subscription pricing model"] []).2
      = evsW ∧
    evsW.findIdx (· = Ev.sleepPacing) < evsW.findIdx (· = Ev.release) :=
  ⟨rfl, by decide⟩

/-- C6 corrected: the per-item events occur in the order acquire → run the
simulation → append (category-local, then global) → progress indicator →
pacing delay → release; on a simulation that raises, acquire → run →
release.  In both shapes the unit is released exactly once per
acquisition, but the release comes AFTER the pacing delay, not before
it. -/
theorem claim_c6_amended (env : String → String) (domain : String) (cfg : EngineConfig)
    (category : String) (hyps : List String) (glob : List SimulationResult) :
    (∃ chunks : List (List Ev),
      (runCategory env domain cfg category hyps glob).2 = chunks.flatten ∧
        ∀ ch ∈ chunks, okChunk category ch ∨ errChunk category ch) ∧
    (runCategory env domain cfg category hyps glob).2.count Ev.acquire
      = (runCategory env domain cfg category hyps glob).2.count Ev.release := by
  obtain ⟨chunks, hev, hok⟩ :=
    runCatGo_chunks env domain cfg category hyps.length hyps 0 glob
  refine ⟨⟨chunks, hev, hok⟩, ?_⟩
  rw [runCategory] at *
  rw [hev]
  clear hev
  induction chunks with
  | nil => rfl
  | cons ch chs ih =>
    obtain ⟨ha, hr⟩ := chunk_counts category ch (hok ch (by simp))
    simp only [List.flatten_cons, List.count_append, ha, hr,
      ih (fun c hc => hok c (by simp [hc]))]

/-- C10: an empty hypothesis list terminates `run_category` at once with
an empty category-local list, no events at all (no acquire, no remote
call, no progress division), and `self.results` unchanged; the batch then
proceeds to the remaining categories exactly as if the empty category were
absent. -/
theorem claim_c10_empty_category (env : String → String) (domain : String)
    (cfg : EngineConfig) (category : String) (glob : List SimulationResult)
    (rest : List (String × List String)) :
    runCategory env domain cfg category [] glob = (.ok ([], glob), []) ∧
    runAllGo env domain cfg ((category, []) :: rest) glob
      = runAllGo env domain cfg rest glob := by
  refine ⟨rfl, ?_⟩
  show (match (runCategory env domain cfg category [] glob).1 with
    | Except.error e => (Except.error e, (runCategory env domain cfg category [] glob).2)
    | Except.ok (_locs, g) =>
      ((runAllGo env domain cfg rest g).1,
        (runCategory env domain cfg category [] glob).2 ++ (runAllGo env domain cfg rest g).2))
    = runAllGo env domain cfg rest glob
  rfl

/-! ## Parse-layer claims (C1, C7, C8, C9) -/

/-- C1 (code bug): the raw reply `\x7b"confidence": "high"\x7d` decodes as
a JSON object, so the local `try/except json.JSONDecodeError` is passed,
but `float("high")` then raises `ValueError` OUTSIDE that boundary and the
parse step aborts instead of producing a default-filled record. -/
theorem claim_c1_coercion_failure_escapes :
    simulate "business" "viability" "h1" 1 "\x7b\"confidence\": \"high\"\x7d"
      = .error .floatCoerce ∧
    responseData "\x7b\"confidence\": \"high\"\x7d"
      = .ok [("confidence", .jstr "high")] :=
  ⟨rfl, rfl⟩

theorem findIdx?_append_head (c : Char) :
    ∀ (l m : List Char) (i : Nat), c ∉ l → m.head? = some c →
      List.findIdx? (fun x => x = c) (l ++ m) i = some (i + l.length)
  | [], m, i, _, hm => by
    rcases m with _ | ⟨a, t⟩
    · simp at hm
    · simp only [List.head?_cons, Option.some.injEq] at hm
      subst hm
      simp [List.findIdx?_cons]
  | a :: l2, m, i, hl, hm => by
    simp only [List.mem_cons, not_or] at hl
    obtain ⟨hac, hl2⟩ := hl
    rw [List.cons_append, List.findIdx?_cons,
      if_neg (by simpa using fun h => hac h.symm),
      findIdx?_append_head c l2 m (i + 1) hl2 hm]
    simp only [List.length_cons, Option.some.injEq]
    omega

theorem pyFind_eq (s : String) (c : Char) (k : Nat)
    (h : s.data.findIdx? (fun x => x = c) = some k) :
    pyFind s c = (k : Int) := by
  rw [pyFind, h]

theorem pyRFind_eq (s : String) (c : Char) (k : Nat)
    (h : s.data.reverse.findIdx? (fun x => x = c) = some k) :
    pyRFind s c = ((s.data.length - 1 - k : Nat) : Int) := by
  rw [pyRFind, h]

theorem pyFind_concat (l m : String) (c : Char) (hl : c ∉ l.data)
    (hm : m.data.head? = some c) :
    pyFind (l ++ m) c = (l.data.length : Int) := by
  have h : (l ++ m).data.findIdx? (fun x => x = c) = some (0 + l.data.length) := by
    rw [String.data_append]
    exact findIdx?_append_head c l.data m.data 0 hl hm
  rw [pyFind_eq (l ++ m) c (0 + l.data.length) h]
  simp

theorem pyRFind_concat (l m : String) (c : Char) (hr : c ∉ m.data)
    (hm : l.data.getLast? = some c) :
    pyRFind (l ++ m) c = ((l.data.length - 1 : Nat) : Int) := by
  have h : (l ++ m).data.reverse.findIdx? (fun x => x = c)
      = some (0 + m.data.reverse.length) := by
    rw [String.data_append, List.reverse_append]
    exact findIdx?_append_head c m.data.reverse l.data.reverse 0
      (fun hmem => hr (List.mem_reverse.mp hmem))
      (by rw [List.head?_reverse]; exact hm)
  rw [pyRFind_eq (l ++ m) c (0 + m.data.reverse.length) h, String.data_append]
  have hlen : 1 ≤ l.data.length := by
    rcases hld : l.data with _ | ⟨a, t⟩
    · rw [hld] at hm
      simp at hm
    · simp
  simp only [List.length_append, List.length_reverse, Option.some.injEq]
  congr 1
  omega

/-- The substring `raw[first-brace : last-brace + 1]` of a blob
`l ++ s ++ r`, when `l` has no opening brace, `r` has no closing brace and
`s` is brace-delimited, is exactly `s`; hence the parse step of
`run_simulation` decodes exactly the embedded object. -/
theorem responseData_concat (l s r : String) (fs : List (String × JValue))
    (hl : lbrace ∉ l.data) (hr : rbrace ∉ r.data)
    (hhead : s.data.head? = some lbrace) (hlast : s.data.getLast? = some rbrace)
    (hdec : jsonLoads s.data = some (.jobj fs)) :
    responseData (l ++ s ++ r) = .ok fs := by
  have hslen : 1 ≤ s.data.length := by
    rcases hsd : s.data with _ | ⟨a, t⟩
    · rw [hsd] at hhead
      simp at hhead
    · simp
  have hfind : pyFind (l ++ s ++ r) lbrace = ((l.data.length : Nat) : Int) := by
    rw [String.append_assoc]
    refine pyFind_concat l (s ++ r) lbrace hl ?_
    rw [String.data_append, List.head?_append, hhead]
    rfl
  have hrfind : pyRFind (l ++ s ++ r) rbrace
      = ((l.data.length + s.data.length - 1 : Nat) : Int) := by
    have hgl : (l ++ s).data.getLast? = some rbrace := by
      rw [String.data_append, List.getLast?_append]
      rw [hlast]
      rfl
    have h := pyRFind_concat (l ++ s) r rbrace hr hgl
    rw [h, String.data_append, List.length_append]
  have hdata : (l ++ s ++ r).data = l.data ++ (s.data ++ r.data) := by
    rw [String.data_append, String.data_append, List.append_assoc]
  simp only [responseData, hfind, hrfind]
  rw [if_pos (by omega :
    (0 : Int) ≤ (l.data.length : Int) ∧
      (l.data.length : Int) < ((l.data.length + s.data.length - 1 : Nat) : Int) + 1)]
  have h1 : ((l.data.length : Nat) : Int).toNat = l.data.length := by omega
  have h2 : ((((l.data.length + s.data.length - 1 : Nat) : Int) + 1).toNat
      - ((l.data.length : Nat) : Int).toNat) = s.data.length := by omega
  rw [h2, h1, hdata, List.drop_left, List.take_left s.data r.data, hdec]

/-- C7 counterexample: with the well-formed object
`\x7b"outcome": "positive"\x7d` embedded in a blob whose trailing noise
contains a `\x7d`, the slice from the first `\x7b` to the LAST `\x7d`
is not valid JSON, so the parse step falls back to the neutral default —
it does NOT extract the same field values as decoding the object
directly. -/
theorem claim_c7_counterexample :
    jsonLoads "\x7b\"outcome\": \"positive\"\x7d".data
      = some (.jobj [("outcome", .jstr "positive")]) ∧
    responseData "\x7b\"outcome\": \"positive\"\x7d \x7d"
      = .ok [("error", .jstr "Invalid JSON"), ("outcome", .jstr "neutral")] ∧
    dGet [("error", .jstr "Invalid JSON"), ("outcome", .jstr "neutral")]
      "outcome" (.jstr "neutral") = .jstr "neutral" ∧
    (JValue.jstr "neutral") ≠ (JValue.jstr "positive") := by
  refine ⟨rfl, rfl, rfl, ?_⟩
  intro h
  exact absurd (JValue.jstr.inj h) (by decide)

/-- C7 corrected: the round-trip holds for noise that cannot confuse the
first-brace/last-brace slice — leading noise with no `\x7b` and trailing
noise with no `\x7d`.  Then parsing the blob decodes exactly the embedded
object, and every extracted field of the result (outcome, confidence,
priority_score, the four lists, the summary metadata) agrees with parsing
the object text alone. -/
theorem claim_c7_amended (l s r : String) (fs : List (String × JValue))
    (hl : lbrace ∉ l.data) (hr : rbrace ∉ r.data)
    (hhead : s.data.head? = some lbrace) (hlast : s.data.getLast? = some rbrace)
    (hdec : jsonLoads s.data = some (.jobj fs)) :
    responseData (l ++ s ++ r) = .ok fs ∧ responseData s = .ok fs ∧
    ∀ domain category hyp n,
      (simulate domain category hyp n (l ++ s ++ r)).map (fun rec =>
        (rec.outcome, rec.confidence, rec.priority_score, rec.insights,
         rec.recommendations, rec.risks, rec.dependencies, rec.metadata))
      = (simulate domain category hyp n s).map (fun rec =>
        (rec.outcome, rec.confidence, rec.priority_score, rec.insights,
         rec.recommendations, rec.risks, rec.dependencies, rec.metadata)) := by
  have h1 : responseData (l ++ s ++ r) = .ok fs :=
    responseData_concat l s r fs hl hr hhead hlast hdec
  have h2 : responseData s = .ok fs := by
    have := responseData_concat "" s "" fs (by simp) (by simp) hhead hlast hdec
    simpa using this
  refine ⟨h1, h2, ?_⟩
  intro domain category hyp n
  simp only [simulate, h1, h2]
  rcases hf : pyFloat (dGet fs "confidence" (.jnum { m := 5, e := 1 })) with _ | conf
  · rfl
  · simp only [hf]
    rcases hp : pyInt (dGet fs "priority_score" (.jnum { m := 50, e := 0 })) with _ | prio
    · rfl
    · simp only [hp]
      rfl

/-- The scenario object of §8 of the spec, with leading and trailing
noise. -/
def sObjFull : String := "\x7b\"outcome\":\"positive\",\"confidence\":0.9,\"priority_score\":85\x7d"

/-- Witness for the corrected C7 at the spec's own scenario reply: the
embedded object is extracted unchanged from the noisy blob. -/
theorem claim_c7_witness :
    lbrace ∉ "Here is my answer: ".data ∧
    rbrace ∉ " extra trailing text".data ∧
    responseData ("Here is my answer: " ++ sObjFull ++ " extra trailing text")
      = .ok [("outcome", .jstr "positive"), ("confidence", .jnum { m := 9, e := 1 }),
             ("priority_score", .jnum { m := 85, e := 0 })] := by
  refine ⟨by decide, by decide, ?_⟩
  exact (claim_c7_amended "Here is my answer: " sObjFull " extra trailing text" _
    (by decide) (by decide) rfl rfl rfl).1

/-- C8 counterexample: the reply
`\x7b"outcome": "banana", "confidence": 5.0\x7d` produces a record whose
outcome is the unvalidated string "banana" — outside
\x7bpositive, negative, neutral\x7d — and whose confidence is 5.0,
outside [0, 1]: the source validates neither field. -/
theorem claim_c8_counterexample :
    (simulate "business" "viability" "h1" 1
        "\x7b\"outcome\": \"banana\", \"confidence\": 5.0\x7d").map
      (fun rec => (rec.outcome, rec.confidence))
      = .ok (.jstr "banana", { m := 50, e := 1 }) ∧
    ("banana" ∉ (["positive", "negative", "neutral"] : List String)) ∧
    ¬((PyNum.mk 50 1).toRat ≤ 1) := by
  refine ⟨rfl, by decide, ?_⟩
  rw [PyNum.toRat]
  norm_num

/-- C8 corrected: the DEFAULTS hold — `outcome` is the JSON object's
`"outcome"` value with default `"neutral"` (in particular `"neutral"`
whenever decoding fell back or the key is absent) and `confidence` is the
`float` coercion of the `"confidence"` value with default 0.5 when the key
is absent — but PRESENT values pass through unvalidated: `outcome` may be
any JSON value and `confidence` any coercible number, with no range
check. -/
theorem claim_c8_amended (domain category hyp : String) (n : Nat) (raw : String)
    (r : SimulationResult) (data : List (String × JValue))
    (hok : simulate domain category hyp n raw = .ok r)
    (hdata : responseData raw = .ok data) :
    r.outcome = dGet data "outcome" (.jstr "neutral") ∧
    pyFloat (dGet data "confidence" (.jnum { m := 5, e := 1 })) = some r.confidence ∧
    (data.lookup "outcome" = none → r.outcome = .jstr "neutral") ∧
    (data.lookup "confidence" = none → r.confidence = { m := 5, e := 1 }) := by
  simp only [simulate, hdata] at hok
  rcases hf : pyFloat (dGet data "confidence" (.jnum { m := 5, e := 1 })) with _ | conf
  · simp only [hf] at hok
    exact Except.noConfusion hok
  · simp only [hf] at hok
    rcases hp : pyInt (dGet data "priority_score" (.jnum { m := 50, e := 0 }))
      with _ | prio
    · simp only [hp] at hok
      exact Except.noConfusion hok
    · simp only [hp] at hok
      obtain rfl := Except.ok.inj hok
      refine ⟨rfl, rfl, ?_, ?_⟩
      · intro hnone
        show dGet data "outcome" (.jstr "neutral") = .jstr "neutral"
        rw [dGet, hnone]
        rfl
      · intro hnone
        show conf = PyNum.mk 5 1
        rw [dGet, hnone] at hf
        simp only [Option.getD_none, pyFloat, Option.some.injEq] at hf
        exact hf.symm

/-- The record `simulate` produces for a reply with no JSON at all. -/
def resW8 : SimulationResult :=
  { simulation_id := "ORC-BUS-VIA-0001"
    domain := "business"
    category := "viability"
    hypothesis := "h1"
    scenario := "h1"
    outcome := .jstr "neutral"
    confidence := { m := 5, e := 1 }
    insights := .jarr []
    recommendations := .jarr []
    risks := .jarr []
    dependencies := .jarr []
    priority_score := 50
    raw_response := "no json here"
    timestamp := ""
    duration_ms := 0
    metadata := [("summary", .jstr "")] }

/-- Witness for the corrected C8 on a JSON-free reply: decoding falls back
and both defaults apply. -/
theorem claim_c8_witness :
    simulate "business" "viability" "h1" 1 "no json here" = .ok resW8 ∧
    responseData "no json here"
      = .ok [("error", .jstr "No JSON found"), ("outcome", .jstr "neutral")] ∧
    resW8.outcome = .jstr "neutral" ∧ resW8.confidence = { m := 5, e := 1 } := by
  obtain ⟨h1, -, -, h4⟩ := claim_c8_amended "business" "viability" "h1" 1 "no json here"
    resW8 [("error", .jstr "No JSON found"), ("outcome", .jstr "neutral")] rfl rfl
  exact ⟨rfl, rfl, h1.trans rfl, h4 rfl⟩

/-- C9 counterexample: with configured hypotheses `\x7b"a": ["h1"]\x7d`
and `--category b` requested, `main` does NOT exit: the emptiness check
(line 411) runs BEFORE the category narrowing (line 417), which then
produces the truthy mapping `\x7b"b": []\x7d`, and the batch runs —
silently — with zero simulations for category "b". -/
theorem claim_c9_counterexample :
    selectHypotheses [("a", ["h1"])] (some "b") none = .ok [("b", [])] ∧
    totalHyps [("b", [])] = 0 ∧
    runAll schedEnv "business" cfgW [("b", [])] = (.ok [], []) :=
  ⟨rfl, rfl, rfl⟩

/-- C9 corrected: the only no-hypotheses contract error surfaced before
scheduling is a wholly empty configured mapping (`sys.exit(1)` at line
414); a REQUESTED category absent from the mapping is masked — selection
yields `\x7bcategory: []\x7d` and the run proceeds with zero simulations
for that category. -/
theorem claim_c9_amended (config : List (String × List String)) (c : String)
    (countArg : Option Nat) :
    (config = [] → selectHypotheses config (some c) countArg = .error ()) ∧
    (config ≠ [] → config.lookup c = none →
      selectHypotheses config (some c) countArg = .ok [(c, [])]) := by
  constructor
  · intro hempty
    subst hempty
    rfl
  · intro hne hnone
    rw [selectHypotheses, if_neg (by simpa using hne)]
    simp only [hnone, Option.getD_none]
    rcases countArg with _ | k
    · rfl
    · by_cases hk : k = 0
      · subst hk
        rfl
      · simp [hk]

/-- Witness for the corrected C9: a missing requested category passes the
check and yields an empty work list. -/
theorem claim_c9_witness :
    (([("a", ["h1"])] : List (String × List String)) ≠ []) ∧
    ([("a", ["h1"])] : List (String × List String)).lookup "b" = none ∧
    selectHypotheses [("a", ["h1"])] (some "b") none = .ok [("b", [])] :=
  ⟨by decide, rfl,
   (claim_c9_amended [("a", ["h1"])] "b" none).2 (by decide) rfl⟩

end OracleEngine
